import Mathlib

/-
  Verification development for the jasm secret-synchronization controller.

  The Go sources are embedded shallowly:
  * internal/annotation/parser.go       → PodAnnotation, SecretSyncRequest, ParseAnnotation
  * internal/provider (aws.go)          → JsonValue, convertValue, convertSecretData
  * internal/provider (registry.go)     → Registry (association list keyed by provider name)
  * internal/controller (controller.go) → Pod, StoredSecret, Reconcile, findPodsForSecret

  Go maps are modelled as association lists (List (String × String)); map iteration
  order never matters for the properties proved here — all statements are about key
  sets and per-key values.  External libraries the Go code calls (yaml.Unmarshal,
  json.Unmarshal, fmt float formatting, json.Marshal) are taken as function
  parameters of the embedding, so every theorem quantifies over their behavior.
-/

/-- Association-list model of a Go map with string keys and string values. -/
abbrev Smap := List (String × String)

/-- Set a key of an association-list map to a value (overwrite if present,
append otherwise).  Models a Go map assignment m[k] = v. -/
def setEntry (m : Smap) (k v : String) : Smap :=
  if (m.lookup k).isSome then m.map (fun p => if p.1 = k then (k, v) else p)
  else m ++ [(k, v)]

/-- internal/annotation/parser.go: the error taxonomy of ParseAnnotation.
The Go code returns fmt.Errorf values; the three shapes are distinguished by
their messages ("annotation value is empty", "failed to parse annotation
YAML: ...", "<field> field is required"). -/
inductive ParseError where
  | emptyPayload : ParseError
  | malformedPayload : String → ParseError
  | missingField : String → ParseError
deriving DecidableEq

/-- internal/annotation/parser.go: PodAnnotation, the structure yaml.Unmarshal
fills.  A missing yaml field leaves the Go zero value: "" for strings, nil map
for Keys (modelled as []). -/
structure PodAnnotation where
  provider : String
  path : String
  secretName : String
  keys : Smap
deriving DecidableEq

/-- internal/annotation/parser.go: SecretSyncRequest. -/
structure SecretSyncRequest where
  provider : String
  secretPath : String
  secretName : String
  nspace : String
  podName : String
  podUID : String
  keyMapping : Smap
deriving DecidableEq

/-- internal/annotation/parser.go lines 38-70: ParseAnnotation.  The call to
yaml.Unmarshal is the external yaml library, passed in as `yamlUnmarshal`. -/
def ParseAnnotation (yamlUnmarshal : String → Except String PodAnnotation)
    (annotationValue nspace podName podUID : String) :
    Except ParseError SecretSyncRequest :=
  if annotationValue = "" then Except.error ParseError.emptyPayload
  else
    match yamlUnmarshal annotationValue with
    | Except.error e => Except.error (ParseError.malformedPayload e)
    | Except.ok pa =>
      if pa.provider = "" then Except.error (ParseError.missingField "provider")
      else if pa.path = "" then Except.error (ParseError.missingField "path")
      else if pa.secretName = "" then Except.error (ParseError.missingField "secretName")
      else Except.ok
        { provider := pa.provider
          secretPath := pa.path
          secretName := pa.secretName
          nspace := nspace
          podName := podName
          podUID := podUID
          keyMapping := pa.keys }

/-- Modelled from the spec: the resource-name charset of the target store
(Kubernetes), i.e. a DNS-1123 subdomain character: lowercase letter, digit,
hyphen or dot.  The Go source does not implement this check (parser.go line 59
is a TODO); this definition exists only to state what the spec requires. -/
def isDNS1123Char (c : Char) : Bool :=
  (c.isLower && c.isAlpha) || c.isDigit || c == '-' || c == '.'

/-- Modelled from the spec: a valid resource name of the target store
(Kubernetes DNS-1123 subdomain): nonempty, at most 253 characters, every
character from `isDNS1123Char`, first and last character lowercase
alphanumeric. -/
def isDNS1123Subdomain (s : String) : Bool :=
  !(s = "") && s.length ≤ 253 && s.toList.all isDNS1123Char &&
    (match s.toList.head? with
     | some c => (c.isLower && c.isAlpha) || c.isDigit
     | none => false) &&
    (match s.toList.getLast? with
     | some c => (c.isLower && c.isAlpha) || c.isDigit
     | none => false)

example :
    ParseAnnotation (fun _ => Except.ok ⟨"aws-secretsmanager", "/p", "db", []⟩)
      "x" "default" "pod" "uid" =
    Except.ok ⟨"aws-secretsmanager", "/p", "db", "default", "pod", "uid", []⟩ :=
  rfl

example :
    ParseAnnotation (fun _ => Except.ok ⟨"", "/p", "db", []⟩) "x" "d" "p" "u" =
    Except.error (ParseError.missingField "provider") :=
  rfl

/-- internal/provider aws.go: the shape of a decoded JSON value, as produced by
json.Unmarshal into map[string]interface{}. Go decodes JSON numbers to float64;
the numeric payload is modelled as an abstract value of type Rat (the claims
proved here never depend on numeric arithmetic, only on which conversion arm
runs). -/
inductive JsonValue where
  | str : String → JsonValue
  | num : Rat → JsonValue
  | bool : Bool → JsonValue
  | null : JsonValue
  | arr : List JsonValue → JsonValue
  | obj : List (String × JsonValue) → JsonValue

/-- internal/provider aws.go lines 60-75: the switch converting one decoded
JSON value to a string.  fmt.Sprintf("%v", float64) is the external fmt
package, passed in as `numFmt`; json.Marshal for composite values is the
external json package, passed in as `marshal`.  fmt.Sprintf("%v", bool)
prints "true"/"false" and is embedded directly. -/
def convertValue (numFmt : Rat → String) (marshal : JsonValue → String) :
    JsonValue → String
  | JsonValue.str s => s
  | JsonValue.num v => numFmt v
  | JsonValue.bool b => if b then "true" else "false"
  | JsonValue.null => ""
  | JsonValue.arr a => marshal (JsonValue.arr a)
  | JsonValue.obj o => marshal (JsonValue.obj o)

/-- internal/provider aws.go lines 58-75: the conversion loop of FetchSecret,
turning the decoded JSON object rawData into map[string]string secretData. -/
def convertSecretData (numFmt : Rat → String) (marshal : JsonValue → String)
    (rawData : List (String × JsonValue)) : Smap :=
  rawData.map (fun p => (p.1, convertValue numFmt marshal p.2))

/-- internal/provider registry.go: the registry maps a provider name to its
fetch capability.  A provider is modelled by its FetchSecret behavior: a
function from the path to either an error string or the fetched data. -/
abbrev Fetcher := String → Except String Smap

/-- internal/provider registry.go: ProviderRegistry.providers, a Go map from
name to provider; Get is association-list lookup (nil for an absent name is
modelled by Option). -/
abbrev Registry := List (String × Fetcher)

/-- internal/controller controller.go: the fields of a corev1.Pod the
controller reads. -/
structure Pod where
  nspace : String
  name : String
  uid : String
  annotations : Smap

/-- internal/controller controller.go: the fields of a corev1.Secret the
controller reads and writes.  `data` is the stored payload (map[string][]byte,
values modelled as strings). -/
structure StoredSecret where
  name : String
  nspace : String
  labels : Smap
  annotations : Smap
  data : Smap
deriving DecidableEq

/-- The resource store: the secrets existing in the cluster, keyed by
(namespace, name). -/
abbrev Store := List StoredSecret

/-- internal/controller controller.go: AnnotationKey. -/
def AnnotationKey : String := "jasm.codnod.io/secret-sync"

/-- internal/controller controller.go: ManagedByLabel. -/
def ManagedByLabel : String := "app.kubernetes.io/managed-by"

/-- internal/controller controller.go: ManagedByValue. -/
def ManagedByValue : String := "jasm"

/-- internal/controller controller.go: SourcePathAnnotation. -/
def SourcePathAnnotation : String := "jasm.codnod.io/source-path"

/-- internal/controller controller.go: SyncedAtAnnotation. -/
def SyncedAtAnnotation : String := "jasm.codnod.io/synced-at"

/-- internal/events: the event reasons the controller can emit. -/
inductive EventReason where
  | secretSyncSuccess : EventReason
  | annotationInvalid : EventReason
  | providerUnsupported : EventReason
  | secretFetchFailed : EventReason
deriving DecidableEq

/-- The outcome value Reconcile returns to controller-runtime:
done   = (ctrl.Result{}, nil)            — terminal success, no requeue;
retry  = (ctrl.Result{Requeue: true}, err) — retryable failure, requeued. -/
inductive RecResult where
  | done : RecResult
  | retry : RecResult
deriving DecidableEq

/-- A write issued against the resource store (r.Create / r.Update). -/
inductive StoreOp where
  | create : StoredSecret → StoreOp
  | update : StoredSecret → StoreOp
deriving DecidableEq

/-- Everything one reconciliation pass produces: the value returned to the
scheduler, the events emitted on the pod, the writes issued against the
store, and the store contents afterwards. -/
structure ReconcileOutcome where
  result : RecResult
  events : List EventReason
  writes : List StoreOp
  store : Store
deriving DecidableEq

/-- Look up a secret in the store by namespace and name (r.Get on a secret
key; a miss models apierrors.IsNotFound). -/
def storeGet (store : Store) (nsp nm : String) : Option StoredSecret :=
  store.find? (fun s => s.nspace = nsp && s.name = nm)

/-- Replace or insert a secret in the store under its (namespace, name) key. -/
def storePut (store : Store) (s : StoredSecret) : Store :=
  if (storeGet store s.nspace s.name).isSome then
    store.map (fun t => if t.nspace = s.nspace && t.name = s.name then s else t)
  else store ++ [s]

/-- internal/controller controller.go lines 228-245: building secretStringData
from the fetched data, applying key mappings when provided.  With a non-empty
mapping, each entry (kubernetesKey, awsSecretKey) copies the fetched value of
awsSecretKey when it exists and is skipped otherwise; with an empty mapping
all fetched keys are copied as-is. -/
def buildStringData (keyMapping secretData : Smap) : Smap :=
  if keyMapping.length > 0 then
    keyMapping.filterMap (fun p => (secretData.lookup p.2).map (fun v => (p.1, v)))
  else secretData

/-- Kubernetes API server write semantics for Secret objects: the write-only
stringData field is merged into data on write, overwriting existing values
key by key; keys present in data and absent from stringData are preserved.
(Kubernetes API reference for Secret.stringData.)  The controller sends the
object it got from r.Get — whose data is the old stored payload — with only
stringData replaced, so this merge decides the stored payload after Update.
On Create the object carries no prior data and the result is stringData
itself. -/
def kubeMergeStringData (data stringData : Smap) : Smap :=
  stringData ++ data.filter (fun p => (stringData.lookup p.1).isNone)

/-- internal/controller controller.go lines 167-280: Reconcile, one pass of
the state machine.  The pod lookup result is passed in as `pod?` (none models
apierrors.IsNotFound, absorbed by client.IgnoreNotFound); `now` is the
RFC3339 timestamp time.Now() would produce; `registry` is the provider
registry; writes against the store always succeed (write errors and
non-NotFound read errors are not modelled — no claim concerns them). -/
def Reconcile (yamlUnmarshal : String → Except String PodAnnotation)
    (registry : Registry) (now : String) (store : Store) (pod? : Option Pod) :
    ReconcileOutcome :=
  match pod? with
  | none => ⟨RecResult.done, [], [], store⟩
  | some pod =>
    match pod.annotations.lookup AnnotationKey with
    | none => ⟨RecResult.done, [], [], store⟩
    | some annotationValue =>
      match ParseAnnotation yamlUnmarshal annotationValue pod.nspace pod.name pod.uid with
      | Except.error _ => ⟨RecResult.done, [EventReason.annotationInvalid], [], store⟩
      | Except.ok syncRequest =>
        if syncRequest.nspace ≠ pod.nspace then
          ⟨RecResult.done, [EventReason.annotationInvalid], [], store⟩
        else
          match registry.lookup syncRequest.provider with
          | none => ⟨RecResult.done, [EventReason.providerUnsupported], [], store⟩
          | some fetchSecret =>
            match fetchSecret syncRequest.secretPath with
            | Except.error _ =>
              ⟨RecResult.retry, [EventReason.secretFetchFailed], [], store⟩
            | Except.ok secretData =>
              let existing := storeGet store syncRequest.nspace syncRequest.secretName
              let base : StoredSecret :=
                match existing with
                | some s => s
                | none => ⟨syncRequest.secretName, syncRequest.nspace, [], [], []⟩
              let secretStringData := buildStringData syncRequest.keyMapping secretData
              let labels1 := setEntry base.labels ManagedByLabel ManagedByValue
              let anns1 :=
                setEntry (setEntry base.annotations SourcePathAnnotation syncRequest.secretPath)
                  SyncedAtAnnotation now
              let newSecret : StoredSecret :=
                ⟨base.name, base.nspace, labels1, anns1,
                  kubeMergeStringData base.data secretStringData⟩
              let op :=
                match existing with
                | some _ => StoreOp.update newSecret
                | none => StoreOp.create newSecret
              ⟨RecResult.done, [EventReason.secretSyncSuccess], [op], storePut store newSecret⟩

/-- internal/controller controller.go lines 307-327: the per-pod test of
findPodsForSecret — the pod carries the sync annotation, it parses, and the
parsed secretName equals the name of the changed secret. -/
def podTargets (yamlUnmarshal : String → Except String PodAnnotation)
    (secret : StoredSecret) (pod : Pod) : Bool :=
  match pod.annotations.lookup AnnotationKey with
  | none => false
  | some v =>
    match ParseAnnotation yamlUnmarshal v pod.nspace pod.name pod.uid with
    | Except.error _ => false
    | Except.ok syncRequest => syncRequest.secretName = secret.name

/-- internal/controller controller.go lines 296-330: findPodsForSecret, the
ownership reverse-lookup.  `allPods` is the cluster pod population; the Go
code lists pods with client.InNamespace(secret.GetNamespace()), modelled by
the namespace filter.  Nothing is returned for a secret without the
managed-by label; otherwise the pods of the namespace of the secret passing
`podTargets` are enqueued for reconciliation. -/
def findPodsForSecret (yamlUnmarshal : String → Except String PodAnnotation)
    (allPods : List Pod) (secret : StoredSecret) : List Pod :=
  if ((secret.labels.lookup ManagedByLabel).getD "") ≠ ManagedByValue then []
  else
    (allPods.filter (fun p => p.nspace = secret.nspace)).filter
      (podTargets yamlUnmarshal secret)

/-! ### Helper lemmas -/

/-- On any successful parse, the request namespace is the namespace argument
(parser.go line 65 copies the argument; the payload has no namespace field). -/
theorem parse_ok_nspace (yamlUnmarshal : String → Except String PodAnnotation)
    (raw nsp pn uid : String) (req : SecretSyncRequest)
    (h : ParseAnnotation yamlUnmarshal raw nsp pn uid = Except.ok req) :
    req.nspace = nsp := by
  by_cases hr : raw = ""
  · simp [ ParseAnnotation, hr] at h
  · cases hy : yamlUnmarshal raw with
    | error e => simp [ ParseAnnotation, hr, hy] at h
    | ok pa =>
      simp only [ ParseAnnotation, if_neg hr, hy] at h
      split_ifs at h
      simp_all
      exact (congrArg SecretSyncRequest.nspace h.symm)

/-- In an association list whose keys are distinct, a key determines its
value. -/
theorem fst_nodup_mem_unique {α β : Type} (l : List (α × β))
    (h : (l.map Prod.fst).Nodup) {a : α} {b c : β}
    (h1 : (a, b) ∈ l) (h2 : (a, c) ∈ l) : b = c := by
  induction l with
  | nil => cases h1
  | cons p t ih =>
    simp only [List.map_cons, List.nodup_cons] at h
    rcases List.mem_cons.mp h1 with rfl | hb
    · have hk : ∀ x : β, (a, x) ∉ t := by simpa using h.1
      rcases List.mem_cons.mp h2 with hc | hc
      · exact (congrArg Prod.snd hc).symm
      · exact absurd hc (hk c)
    · rcases List.mem_cons.mp h2 with rfl | hc
      · have hk : ∀ x : β, (a, x) ∉ t := by simpa using h.1
        exact absurd hb (hk b)
      · exact ih h.2 hb hc

/-! ### Claim theorems -/

/-- C4: ParseAnnotation fails with EmptyPayload on every empty rawText; a
payload that parses but has an absent/empty provider, path or secretName
fails with MissingField naming that field; a payload with all three fields
non-empty parses successfully, with keyMapping carried through unmodified. -/
theorem C4_parse_field_validation
    (yamlUnmarshal : String → Except String PodAnnotation)
    (raw nsp pn uid : String) :
    ( ParseAnnotation yamlUnmarshal "" nsp pn uid =
        Except.error ParseError.emptyPayload) ∧
    (∀ pa : PodAnnotation, raw ≠ "" → yamlUnmarshal raw = Except.ok pa →
      (pa.provider = "" →
        ParseAnnotation yamlUnmarshal raw nsp pn uid =
          Except.error (ParseError.missingField "provider")) ∧
      (pa.provider ≠ "" → pa.path = "" →
        ParseAnnotation yamlUnmarshal raw nsp pn uid =
          Except.error (ParseError.missingField "path")) ∧
      (pa.provider ≠ "" → pa.path ≠ "" → pa.secretName = "" →
        ParseAnnotation yamlUnmarshal raw nsp pn uid =
          Except.error (ParseError.missingField "secretName")) ∧
      (pa.provider ≠ "" → pa.path ≠ "" → pa.secretName ≠ "" →
        ParseAnnotation yamlUnmarshal raw nsp pn uid =
          Except.ok ⟨pa.provider, pa.path, pa.secretName, nsp, pn, uid, pa.keys⟩)) := by
  refine ⟨by simp [ ParseAnnotation], ?_⟩
  intro pa hraw hok
  simp only [ ParseAnnotation, if_neg hraw, hok]
  refine ⟨?_, ?_, ?_, ?_⟩ <;> intros <;> simp_all

/-- C4 witness: the theorem applied at a concrete parse result with all
fields present, and at one missing the path. -/
theorem C4_witness :
    ( ParseAnnotation (fun _ => Except.ok ⟨"aws-secretsmanager", "", "db", []⟩)
        "x" "d" "p" "u" = Except.error (ParseError.missingField "path")) ∧
    ( ParseAnnotation (fun _ => Except.ok ⟨"aws-secretsmanager", "/pp", "db", [("a", "b")]⟩)
        "x" "d" "p" "u" =
      Except.ok ⟨"aws-secretsmanager", "/pp", "db", "d", "p", "u", [("a", "b")]⟩) :=
  ⟨((C4_parse_field_validation (fun _ => Except.ok ⟨"aws-secretsmanager", "", "db", []⟩)
      "x" "d" "p" "u").2 ⟨"aws-secretsmanager", "", "db", []⟩ (by decide) rfl).2.1
      (by decide) rfl,
   ((C4_parse_field_validation
      (fun _ => Except.ok ⟨"aws-secretsmanager", "/pp", "db", [("a", "b")]⟩)
      "x" "d" "p" "u").2 ⟨"aws-secretsmanager", "/pp", "db", [("a", "b")]⟩ (by decide)
      rfl).2.2.2 (by decide) (by decide) (by decide)⟩

/-- C6: whenever ParseAnnotation succeeds, the returned request namespace is
the namespace of the originating pod passed in as an argument — never a value
from the parsed payload (the payload has no namespace field at all, so a
disagreeing payload namespace cannot arise, and the engine treats any
hypothetical disagreement as AnnotationInvalid, not an override). -/
theorem C6_namespace_from_pod
    (yamlUnmarshal : String → Except String PodAnnotation)
    (raw nsp pn uid : String) (req : SecretSyncRequest)
    (h : ParseAnnotation yamlUnmarshal raw nsp pn uid = Except.ok req) :
    req.nspace = nsp :=
  parse_ok_nspace yamlUnmarshal raw nsp pn uid req h

/-- C6 witness: the theorem applied at a concrete successful parse. -/
theorem C6_witness :
    (⟨"aws-secretsmanager", "/pp", "db", "team-a", "p", "u", []⟩ :
      SecretSyncRequest).nspace = "team-a" :=
  C6_namespace_from_pod (fun _ => Except.ok ⟨"aws-secretsmanager", "/pp", "db", []⟩)
    "x" "team-a" "p" "u" ⟨"aws-secretsmanager", "/pp", "db", "team-a", "p", "u", []⟩ rfl

/-- The key list of the merged payload under a non-empty mapping: exactly the
mapping entries whose source key exists in the fetched data, in mapping
order. -/
theorem buildStringData_keys (keyMapping secretData : Smap) :
    (keyMapping.filterMap
        (fun p => (secretData.lookup p.2).map (fun v => (p.1, v)))).map Prod.fst =
      (keyMapping.filter (fun p => (secretData.lookup p.2).isSome)).map Prod.fst := by
  induction keyMapping with
  | nil => rfl
  | cons p t ih =>
    cases hl : secretData.lookup p.2 with
    | none => simp [List.filterMap_cons, List.filter_cons, hl, ih]
    | some v => simp [List.filterMap_cons, List.filter_cons, hl, ih]

/-- C3: with a non-empty keyMapping the merged payload consists exactly of
the mapping target keys whose source key exists in the fetched data — the
key list equals that of the filtered mapping, each surviving target key
carries the fetched value of its source key, and a target key whose source
key is absent does not appear at all (never an empty string); with an empty
keyMapping the merged payload is the fetched data verbatim. -/
theorem C3_merge_semantics (keyMapping secretData : Smap) :
    (keyMapping ≠ [] →
      ((buildStringData keyMapping secretData).map Prod.fst =
        (keyMapping.filter (fun p => (secretData.lookup p.2).isSome)).map Prod.fst) ∧
      (∀ tk sk v, (tk, sk) ∈ keyMapping → secretData.lookup sk = some v →
        (tk, v) ∈ buildStringData keyMapping secretData) ∧
      (∀ tk sk, (keyMapping.map Prod.fst).Nodup → (tk, sk) ∈ keyMapping →
        secretData.lookup sk = none →
        tk ∉ (buildStringData keyMapping secretData).map Prod.fst)) ∧
    (keyMapping = [] → buildStringData keyMapping secretData = secretData) := by
  constructor
  · intro hne
    have hlen : keyMapping.length > 0 := List.length_pos.mpr hne
    have hb : buildStringData keyMapping secretData =
        keyMapping.filterMap
          (fun p => (secretData.lookup p.2).map (fun v => (p.1, v))) := by
      simp [buildStringData, hlen]
    refine ⟨by rw [hb]; exact buildStringData_keys keyMapping secretData, ?_, ?_⟩
    · intro tk sk v hmem hl
      rw [hb]
      exact List.mem_filterMap.mpr ⟨(tk, sk), hmem, by simp [hl]⟩
    · intro tk sk hnd hmem hl hcontra
      rw [hb, buildStringData_keys] at hcontra
      rcases List.mem_map.mp hcontra with ⟨q, hq, hfst⟩
      rcases List.mem_filter.mp hq with ⟨hqmem, hqsome⟩
      have : q.2 = sk := by
        have := fst_nodup_mem_unique keyMapping hnd
          (show (tk, q.2) ∈ keyMapping by rw [← hfst]; exact hqmem) hmem
        exact this
      rw [this, hl] at hqsome
      simp at hqsome
  · intro h0
    simp [buildStringData, h0]

/-- C3 witness: the theorem applied at a concrete mapping and fetched data —
key "database" is mapped from the present source key DB_HOST and carries its
value, key "password" is omitted because DB_PASSWORD is absent. -/
theorem C3_witness :
    ("database", "h") ∈
      buildStringData [("database", "DB_HOST"), ("password", "DB_PASSWORD")]
        [("DB_HOST", "h")] ∧
    "password" ∉
      (buildStringData [("database", "DB_HOST"), ("password", "DB_PASSWORD")]
        [("DB_HOST", "h")]).map Prod.fst :=
  ⟨((C3_merge_semantics [("database", "DB_HOST"), ("password", "DB_PASSWORD")]
      [("DB_HOST", "h")]).1 (by decide)).2.1 "database" "DB_HOST" "h"
      (by decide) (by decide),
   ((C3_merge_semantics [("database", "DB_HOST"), ("password", "DB_PASSWORD")]
      [("DB_HOST", "h")]).1 (by decide)).2.2 "password" "DB_PASSWORD"
      (by decide) (by decide) (by decide)⟩

/-- C8: for every decoded JSON object, the fetched result has exactly the
keys of the object, and each value is converted by its shape: strings pass
through unchanged, numbers are stringified with the fmt formatter, booleans
become "true"/"false", and composite values (arrays, objects) are serialized
with the json marshaller — no key is dropped.  Quantified over the external
fmt and json.Marshal behaviors. -/
theorem C8_value_conversion (numFmt : Rat → String) (marshal : JsonValue → String)
    (rawData : List (String × JsonValue)) :
    ((convertSecretData numFmt marshal rawData).map Prod.fst = rawData.map Prod.fst) ∧
    (∀ k s, (k, JsonValue.str s) ∈ rawData →
      (k, s) ∈ convertSecretData numFmt marshal rawData) ∧
    (∀ k v, (k, JsonValue.num v) ∈ rawData →
      (k, numFmt v) ∈ convertSecretData numFmt marshal rawData) ∧
    (∀ k b, (k, JsonValue.bool b) ∈ rawData →
      (k, if b then "true" else "false") ∈ convertSecretData numFmt marshal rawData) ∧
    (∀ k a, (k, JsonValue.arr a) ∈ rawData →
      (k, marshal (JsonValue.arr a)) ∈ convertSecretData numFmt marshal rawData) ∧
    (∀ k o, (k, JsonValue.obj o) ∈ rawData →
      (k, marshal (JsonValue.obj o)) ∈ convertSecretData numFmt marshal rawData) := by
  refine ⟨?_, ?_, ?_, ?_, ?_, ?_⟩
  · simp [convertSecretData]
  · intro k s h
    exact List.mem_map.mpr ⟨(k, JsonValue.str s), h, rfl⟩
  · intro k v h
    exact List.mem_map.mpr ⟨(k, JsonValue.num v), h, rfl⟩
  · intro k b h
    exact List.mem_map.mpr ⟨(k, JsonValue.bool b), h, rfl⟩
  · intro k a h
    exact List.mem_map.mpr ⟨(k, JsonValue.arr a), h, rfl⟩
  · intro k o h
    exact List.mem_map.mpr ⟨(k, JsonValue.obj o), h, rfl⟩

/-- C8 witness: the theorem applied at a concrete object holding one string
and one boolean key, with concrete fmt and marshal stand-ins. -/
theorem C8_witness :
    ("host", "h") ∈
      convertSecretData (fun _ => "0") (fun _ => "json")
        [("host", JsonValue.str "h"), ("flag", JsonValue.bool true)] ∧
    ("flag", "true") ∈
      convertSecretData (fun _ => "0") (fun _ => "json")
        [("host", JsonValue.str "h"), ("flag", JsonValue.bool true)] :=
  ⟨(C8_value_conversion (fun _ => "0") (fun _ => "json")
      [("host", JsonValue.str "h"), ("flag", JsonValue.bool true)]).2.1 "host" "h"
      (by simp),
   (C8_value_conversion (fun _ => "0") (fun _ => "json")
      [("host", JsonValue.str "h"), ("flag", JsonValue.bool true)]).2.2.2.1 "flag" true
      (by simp)⟩

/-- C10: a key of the source JSON object whose value is null is kept in the
fetch result and mapped to the empty string — neither dropped nor left
unset. -/
theorem C10_null_becomes_empty (numFmt : Rat → String) (marshal : JsonValue → String)
    (rawData : List (String × JsonValue)) (k : String)
    (h : (k, JsonValue.null) ∈ rawData) :
    (k, "") ∈ convertSecretData numFmt marshal rawData ∧
    k ∈ (convertSecretData numFmt marshal rawData).map Prod.fst := by
  have hm : (k, "") ∈ convertSecretData numFmt marshal rawData :=
    List.mem_map.mpr ⟨(k, JsonValue.null), h, rfl⟩
  exact ⟨hm, List.mem_map.mpr ⟨(k, ""), hm, rfl⟩⟩

/-- C10 witness: the theorem applied at a concrete object with a null key. -/
theorem C10_witness :
    ("opt", "") ∈
      convertSecretData (fun _ => "0") (fun _ => "json")
        [("a", JsonValue.str "x"), ("opt", JsonValue.null)] :=
  (C10_null_becomes_empty (fun _ => "0") (fun _ => "json")
    [("a", JsonValue.str "x"), ("opt", JsonValue.null)] "opt" (by simp)).1

/-! ### Concrete fixtures for witnesses and counterexamples -/

/-- A concrete yaml.Unmarshal behavior: the text "anno-db" decodes to the
database annotation of the spec scenarios, anything else is a yaml error. -/
def yamlFix : String → Except String PodAnnotation := fun s =>
  if s = "anno-db" then
    Except.ok ⟨"aws-secretsmanager", "/prod/myapp/database", "db-credentials", []⟩
  else Except.error "yaml error"

/-- A concrete pod carrying the sync annotation. -/
def podFix : Pod := ⟨"default", "test-pod", "uid-123", [(AnnotationKey, "anno-db")]⟩

/-- A registry whose aws-secretsmanager provider finds the database path. -/
def registryFix : Registry :=
  [("aws-secretsmanager", fun p =>
    if p = "/prod/myapp/database" then Except.ok [("DB_HOST", "h")]
    else Except.error "ResourceNotFoundException")]

/-- A registry whose aws-secretsmanager provider fails every fetch with the
permanent-class AWS not-found error. -/
def registryNotFoundFix : Registry :=
  [("aws-secretsmanager", fun _ => Except.error "ResourceNotFoundException")]

/-- An existing managed secret with a stale payload key OLD_KEY. -/
def oldSecretFix : StoredSecret :=
  ⟨"db-credentials", "default", [(ManagedByLabel, ManagedByValue)], [],
    [("OLD_KEY", "stale")]⟩

/-- The same secret without the managed-by label. -/
def unlabeledSecretFix : StoredSecret := ⟨"db-credentials", "default", [], [], []⟩

/-- C5: on every reconciliation path that terminates before the upsert step —
pod gone, annotation absent, parse failure, namespace mismatch, unknown
provider, or fetch failure — no create or update is issued against the
resource store and the stored state is unchanged. -/
theorem C5_error_paths_no_store_writes
    (yamlUnmarshal : String → Except String PodAnnotation)
    (registry : Registry) (now : String) (store : Store) (pod? : Option Pod)
    (h : pod? = none
      ∨ (∃ pod, pod? = some pod ∧ pod.annotations.lookup AnnotationKey = none)
      ∨ (∃ pod v e, pod? = some pod ∧ pod.annotations.lookup AnnotationKey = some v ∧
          ParseAnnotation yamlUnmarshal v pod.nspace pod.name pod.uid = Except.error e)
      ∨ (∃ pod v req, pod? = some pod ∧ pod.annotations.lookup AnnotationKey = some v ∧
          ParseAnnotation yamlUnmarshal v pod.nspace pod.name pod.uid = Except.ok req ∧
          req.nspace ≠ pod.nspace)
      ∨ (∃ pod v req, pod? = some pod ∧ pod.annotations.lookup AnnotationKey = some v ∧
          ParseAnnotation yamlUnmarshal v pod.nspace pod.name pod.uid = Except.ok req ∧
          registry.lookup req.provider = none)
      ∨ (∃ pod v req fetchSecret e, pod? = some pod ∧
          pod.annotations.lookup AnnotationKey = some v ∧
          ParseAnnotation yamlUnmarshal v pod.nspace pod.name pod.uid = Except.ok req ∧
          registry.lookup req.provider = some fetchSecret ∧
          fetchSecret req.secretPath = Except.error e)) :
    (Reconcile yamlUnmarshal registry now store pod?).writes = [] ∧
    (Reconcile yamlUnmarshal registry now store pod?).store = store := by
  rcases h with rfl | ⟨pod, rfl, ha⟩ | ⟨pod, v, e, rfl, ha, hp⟩ |
    ⟨pod, v, req, rfl, ha, hp, hne⟩ | ⟨pod, v, req, rfl, ha, hp, hreg⟩ |
    ⟨pod, v, req, fs, e, rfl, ha, hp, hreg, hf⟩
  · exact ⟨rfl, rfl⟩
  · simp [Reconcile, ha]
  · simp [Reconcile, ha, hp]
  · exact absurd (parse_ok_nspace yamlUnmarshal v pod.nspace pod.name pod.uid req hp) hne
  · have hns := parse_ok_nspace yamlUnmarshal v pod.nspace pod.name pod.uid req hp
    simp [Reconcile, ha, hp, hns, hreg]
  · have hns := parse_ok_nspace yamlUnmarshal v pod.nspace pod.name pod.uid req hp
    simp [Reconcile, ha, hp, hns, hreg, hf]

/-- C5 witness: the theorem applied to a concrete reconciliation whose fetch
fails — the store is untouched. -/
theorem C5_witness :
    (Reconcile yamlFix registryNotFoundFix "t1" [oldSecretFix] (some podFix)).writes =
      [] ∧
    (Reconcile yamlFix registryNotFoundFix "t1" [oldSecretFix] (some podFix)).store =
      [oldSecretFix] :=
  C5_error_paths_no_store_writes yamlFix registryNotFoundFix "t1" [oldSecretFix]
    (some podFix)
    (Or.inr (Or.inr (Or.inr (Or.inr (Or.inr
      ⟨podFix, "anno-db",
        ⟨"aws-secretsmanager", "/prod/myapp/database", "db-credentials", "default",
          "test-pod", "uid-123", []⟩,
        (fun _ => Except.error "ResourceNotFoundException"), "ResourceNotFoundException",
        rfl, rfl, rfl, rfl, rfl⟩)))))

/-- C2 counterexample: a reconciliation whose provider fetch fails with the
permanent AWS not-found error does NOT return terminal no-op success — the
code returns (ctrl.Result{Requeue: true}, err), a retryable failure, for
every fetch error.  This refutes the claim that a permanent fetch failure is
absorbed with no retry scheduled. -/
theorem C2_counterexample :
    (Reconcile yamlFix registryNotFoundFix "t1" [] (some podFix)).result =
      RecResult.retry ∧
    (Reconcile yamlFix registryNotFoundFix "t1" [] (some podFix)).result ≠
      RecResult.done ∧
    (Reconcile yamlFix registryNotFoundFix "t1" [] (some podFix)).events =
      [EventReason.secretFetchFailed] := by
  exact ⟨rfl, by decide, rfl⟩

/-- C2 (amended): every fetch failure — with no distinction between permanent
and transient — emits SecretFetchFailed and is returned to the scheduler as a
retryable failure with no store write. -/
theorem C2_fetch_failure_always_requeued
    (yamlUnmarshal : String → Except String PodAnnotation)
    (registry : Registry) (now : String) (store : Store) (pod : Pod)
    (v : String) (req : SecretSyncRequest) (fetchSecret : Fetcher) (e : String)
    (ha : pod.annotations.lookup AnnotationKey = some v)
    (hp : ParseAnnotation yamlUnmarshal v pod.nspace pod.name pod.uid = Except.ok req)
    (hreg : registry.lookup req.provider = some fetchSecret)
    (hf : fetchSecret req.secretPath = Except.error e) :
    Reconcile yamlUnmarshal registry now store (some pod) =
      ⟨RecResult.retry, [EventReason.secretFetchFailed], [], store⟩ := by
  have hns := parse_ok_nspace yamlUnmarshal v pod.nspace pod.name pod.uid req hp
  simp [Reconcile, ha, hp, hns, hreg, hf]

/-- C2 witness: the amended theorem applied at the concrete not-found
reconciliation. -/
theorem C2_witness :
    Reconcile yamlFix registryNotFoundFix "t1" [] (some podFix) =
      ⟨RecResult.retry, [EventReason.secretFetchFailed], [], []⟩ :=
  C2_fetch_failure_always_requeued yamlFix registryNotFoundFix "t1" [] podFix
    "anno-db"
    ⟨"aws-secretsmanager", "/prod/myapp/database", "db-credentials", "default",
      "test-pod", "uid-123", []⟩
    (fun _ => Except.error "ResourceNotFoundException") "ResourceNotFoundException"
    rfl rfl rfl rfl

/-- The per-pod predicate of the reverse-lookup, as an existential. -/
theorem podTargets_iff (yamlUnmarshal : String → Except String PodAnnotation)
    (secret : StoredSecret) (pod : Pod) :
    podTargets yamlUnmarshal secret pod = true ↔
      ∃ v req, pod.annotations.lookup AnnotationKey = some v ∧
        ParseAnnotation yamlUnmarshal v pod.nspace pod.name pod.uid = Except.ok req ∧
        req.secretName = secret.name := by
  unfold podTargets
  cases hla : pod.annotations.lookup AnnotationKey with
  | none => simp
  | some v =>
    cases hpp : ParseAnnotation yamlUnmarshal v pod.nspace pod.name pod.uid with
    | error e => simp [hpp]
    | ok req => simp [hpp]

/-- C7: the reverse-lookup enqueues exactly the pods that live in the
namespace of the secret, carry the sync annotation, whose annotation parses, and
whose parsed secretName equals the name of the secret; a secret without the
engine-managed label enqueues nothing. -/
theorem C7_reverse_lookup_exact
    (yamlUnmarshal : String → Except String PodAnnotation)
    (allPods : List Pod) (secret : StoredSecret) :
    (((secret.labels.lookup ManagedByLabel).getD "") ≠ ManagedByValue →
      findPodsForSecret yamlUnmarshal allPods secret = []) ∧
    (∀ pod, pod ∈ findPodsForSecret yamlUnmarshal allPods secret ↔
      (((secret.labels.lookup ManagedByLabel).getD "") = ManagedByValue ∧
        pod ∈ allPods ∧ pod.nspace = secret.nspace ∧
        ∃ v req, pod.annotations.lookup AnnotationKey = some v ∧
          ParseAnnotation yamlUnmarshal v pod.nspace pod.name pod.uid = Except.ok req ∧
          req.secretName = secret.name)) := by
  constructor
  · intro hl
    simp only [findPodsForSecret, if_pos hl]
  · intro pod
    by_cases hl : ((secret.labels.lookup ManagedByLabel).getD "") = ManagedByValue
    · constructor
      · intro hmem
        rw [findPodsForSecret, if_neg (not_not_intro hl)] at hmem
        rcases List.mem_filter.mp hmem with ⟨h1, hpred⟩
        rcases List.mem_filter.mp h1 with ⟨hall, hns⟩
        exact ⟨hl, hall, by simpa using hns, (podTargets_iff yamlUnmarshal secret pod).mp hpred⟩
      · rintro ⟨-, hall, hns, hex⟩
        rw [findPodsForSecret, if_neg (not_not_intro hl)]
        exact List.mem_filter.mpr
          ⟨List.mem_filter.mpr ⟨hall, by simpa using hns⟩,
            (podTargets_iff yamlUnmarshal secret pod).mpr hex⟩
    · constructor
      · intro hmem
        rw [findPodsForSecret, if_pos hl] at hmem
        cases hmem
      · rintro ⟨hcontra, -⟩
        exact absurd hcontra hl

/-- C7 witness: the unlabeled secret enqueues no pods; the labeled managed
secret enqueues the matching pod. -/
theorem C7_witness :
    findPodsForSecret yamlFix [podFix] unlabeledSecretFix = [] ∧
    podFix ∈ findPodsForSecret yamlFix [podFix] oldSecretFix :=
  ⟨(C7_reverse_lookup_exact yamlFix [podFix] unlabeledSecretFix).1 (by decide),
   ((C7_reverse_lookup_exact yamlFix [podFix] oldSecretFix).2 podFix).mpr
     ⟨by decide, by simp, rfl,
      ⟨"anno-db",
        ⟨"aws-secretsmanager", "/prod/myapp/database", "db-credentials", "default",
          "test-pod", "uid-123", []⟩, rfl, rfl, rfl⟩⟩⟩

/-- C1: evaluation at the failing input.  Reconciling against an existing
managed secret whose stored payload has the stale key OLD_KEY, with merged
payload mapping only DB_HOST, reports success — but OLD_KEY is still in the
stored payload afterwards.  The controller sends back the object it read
(old data intact) with only the write-only stringData field replaced, and
the store merges stringData into data key by key, so keys absent from the
merged payload are never removed: a field-level merge, not the full replace
the claim and the spec describe. -/
theorem C1_update_keeps_stale_key :
    (Reconcile yamlFix registryFix "t1" [oldSecretFix] (some podFix)).result =
      RecResult.done ∧
    buildStringData [] [("DB_HOST", "h")] = [("DB_HOST", "h")] ∧
    ((Reconcile yamlFix registryFix "t1" [oldSecretFix] (some podFix)).store.map
      StoredSecret.data) = [[("DB_HOST", "h"), ("OLD_KEY", "stale")]] ∧
    "OLD_KEY" ∉ (buildStringData [] [("DB_HOST", "h")]).map Prod.fst :=
  ⟨rfl, rfl, rfl, by decide⟩

/-- A yaml.Unmarshal behavior decoding to a secretName that violates the
target-store resource-name charset. -/
def yamlBadNameFix : String → Except String PodAnnotation := fun _ =>
  Except.ok ⟨"aws-secretsmanager", "/prod/app", "Bad_Name", []⟩

/-- C9: evaluation at the failing input.  ParseAnnotation performs no
resource-name charset validation (parser.go line 59 is an unimplemented
TODO): a secretName violating the DNS-1123 charset of the target store is
returned in a successful parse, not rejected by validation. -/
theorem C9_no_charset_validation :
    ParseAnnotation yamlBadNameFix "anno" "default" "test-pod" "uid-123" =
      Except.ok
        ⟨"aws-secretsmanager", "/prod/app", "Bad_Name", "default", "test-pod",
          "uid-123", []⟩ ∧
    isDNS1123Subdomain "Bad_Name" = false :=
  ⟨rfl, by decide⟩
